import Mathlib

/-!
Verification of the session-manager core of a Pusher websocket client
(`client.go`).  Pure logic is embedded as executable Lean functions; the
network transport, the Go JSON codec and the goroutine side effects are
modelled explicitly (environments supply receive/dial/write results, side
effects are returned as action traces).
-/

/-- JSON values. This models the external JSON codec (declared out of scope
by the specification); numbers are restricted to integers, which covers every
payload exercised by the client under verification. -/
inductive Json where
  | null : Json
  | bool : Bool → Json
  | num : Int → Json
  | str : String → Json
  | arr : List Json → Json
  | obj : List (String × Json) → Json
deriving Repr

/-- Opening-brace character, written numerically. -/
def lbrace : Char := Char.ofNat 123

/-- Closing-brace character, written numerically. -/
def rbrace : Char := Char.ofNat 125

/-- Skip JSON whitespace. -/
def skipWs : List Char → List Char
  | c :: rest =>
    if c = ' ' ∨ c = '\t' ∨ c = '\n' ∨ c = '\r' then skipWs rest else c :: rest
  | [] => []

/-- Translate a JSON escape character to the character it denotes. -/
def unescape (c : Char) : Option Char :=
  if c = 'n' then some '\n'
  else if c = 't' then some '\t'
  else if c = 'r' then some '\r'
  else if c = 'b' then some (Char.ofNat 8)
  else if c = 'f' then some (Char.ofNat 12)
  else if c = '"' ∨ c = '\\' ∨ c = '/' then some c
  else none

/-- Parse the body of a JSON string literal (the opening quote has already
been consumed); returns the decoded characters and the remaining input. -/
def parseStringBody : List Char → Option (List Char × List Char)
  | [] => none
  | '"' :: rest => some ([], rest)
  | '\\' :: c :: rest =>
    match unescape c with
    | none => none
    | some e =>
      match parseStringBody rest with
      | none => none
      | some (s, rest') => some (e :: s, rest')
  | c :: rest =>
    match parseStringBody rest with
    | none => none
    | some (s, rest') => some (c :: s, rest')

/-- Numeric value of a decimal digit character. -/
def digitVal (ch : Char) : Nat := ch.toNat - 48

/-- Fold a digit list into a natural number. -/
def digitsToNat : List Char → Nat → Nat
  | [], acc => acc
  | ch :: rest, acc => digitsToNat rest (acc * 10 + digitVal ch)

/-- Split the longest leading run of decimal digits from the input. -/
def takeDigits : List Char → List Char × List Char
  | [] => ([], [])
  | ch :: rest =>
    if ch.isDigit then
      let (ds, r) := takeDigits rest
      (ch :: ds, r)
    else ([], ch :: rest)

mutual

/-- Fuel-bounded recursive-descent parser for a JSON value. -/
def parseValue : Nat → List Char → Option (Json × List Char)
  | 0, _ => none
  | Nat.succ fuel, input =>
    match skipWs input with
    | 'n' :: 'u' :: 'l' :: 'l' :: rest => some (Json.null, rest)
    | 't' :: 'r' :: 'u' :: 'e' :: rest => some (Json.bool true, rest)
    | 'f' :: 'a' :: 'l' :: 's' :: 'e' :: rest => some (Json.bool false, rest)
    | '"' :: rest =>
      match parseStringBody rest with
      | none => none
      | some (s, rest') => some (Json.str (String.mk s), rest')
    | '[' :: rest =>
      match skipWs rest with
      | ']' :: rest' => some (Json.arr [], rest')
      | r =>
        match parseArrayItems fuel r with
        | none => none
        | some (vs, rest') => some (Json.arr vs, rest')
    | '-' :: rest =>
      match takeDigits rest with
      | ([], _) => none
      | (ds, rest') => some (Json.num (-(Int.ofNat (digitsToNat ds 0))), rest')
    | c :: rest =>
      if c = lbrace then
        match skipWs rest with
        | [] => none
        | c' :: rest' =>
          if c' = rbrace then some (Json.obj [], rest')
          else
            match parseObjItems fuel (c' :: rest') with
            | none => none
            | some (ms, rest'') => some (Json.obj ms, rest'')
      else if c.isDigit then
        match takeDigits (c :: rest) with
        | (ds, rest') => some (Json.num (Int.ofNat (digitsToNat ds 0)), rest')
      else none
    | [] => none

/-- Parse a comma-separated list of array items followed by a closing
bracket. -/
def parseArrayItems : Nat → List Char → Option (List Json × List Char)
  | 0, _ => none
  | Nat.succ fuel, input =>
    match parseValue fuel input with
    | none => none
    | some (v, rest) =>
      match skipWs rest with
      | ',' :: rest' =>
        match parseArrayItems fuel rest' with
        | none => none
        | some (vs, rest'') => some (v :: vs, rest'')
      | ']' :: rest' => some ([v], rest')
      | _ => none

/-- Parse a comma-separated list of object members followed by a closing
brace. -/
def parseObjItems : Nat → List Char → Option (List (String × Json) × List Char)
  | 0, _ => none
  | Nat.succ fuel, input =>
    match skipWs input with
    | '"' :: rest =>
      match parseStringBody rest with
      | none => none
      | some (k, rest1) =>
        match skipWs rest1 with
        | ':' :: rest2 =>
          match parseValue fuel rest2 with
          | none => none
          | some (v, rest3) =>
            match skipWs rest3 with
            | ',' :: rest4 =>
              match parseObjItems fuel rest4 with
              | none => none
              | some (ms, rest5) => some ((String.mk k, v) :: ms, rest5)
            | c :: rest4 =>
              if c = rbrace then some ([(String.mk k, v)], rest4) else none
            | [] => none
        | _ => none
    | _ => none

end

/-- Parse a complete JSON document: one value, with only whitespace allowed
after it. -/
def parseJson (s : String) : Option Json :=
  match parseValue (s.data.length + 1) s.data with
  | none => none
  | some (v, rest) => if skipWs rest = [] then some v else none

/-- Decode a JSON document into a Go string destination: succeeds on a JSON
string; a JSON null leaves the destination at its zero value. -/
def jsonUnmarshalString (raw : String) : Option String :=
  match parseJson raw with
  | some (Json.str s) => some s
  | some Json.null => some ""
  | _ => none

/-- UnmarshalDataString (client.go lines 113-122): decode double-encoded JSON
data, first as a JSON string, then that string as JSON into the destination. -/
def UnmarshalDataString (data : String) : Except String Json :=
  match jsonUnmarshalString data with
  | none => Except.error "failed to unmarshal data to string"
  | some dataStr =>
    match parseJson dataStr with
    | none => Except.error "failed to unmarshal data string to destination"
    | some v => Except.ok v

/-- Lookup of a key in an association list; models access to decoded JSON
object fields and to Go maps (our inputs never carry duplicate keys). -/
def alistLookup {α : Type} : List (String × α) → String → Option α
  | [], _ => none
  | (k, v) :: rest, key => if k = key then some v else alistLookup rest key

/-- Protocol event names used by the connect handshake (client.go lines 21-30). -/
def pusherError : String := "pusher:error"

/-- Name of the successful-handshake event. -/
def pusherConnEstablished : String := "pusher:connection_established"

/-- One second expressed in nanoseconds, the unit of Go durations. -/
def second : Int := 1000000000

/-- Default timeout for receiving a pong response (client.go line 44). -/
def defaultPongTimeout : Int := 30 * second

/-- Number of failed pongs before reconnecting (client.go line 46). -/
def maxPongFailures : Int := 2

/-- Initial reconnect delay (client.go line 48). -/
def initialReconnectDelay : Int := 1 * second

/-- Maximum reconnect delay under exponential backoff (client.go line 50). -/
def maxReconnectDelay : Int := 60 * second

/-- Minimum of two durations (client.go lines 351-356). -/
def goMin (a b : Int) : Int := if a < b then a else b

/-- Modelled from the spec: the Event record is declared by the event codec,
a source file outside the reviewed set; the spec defines it as a decoded
frame with event, channel and JSON-encoded data fields. -/
structure Event where
  event : String
  channel : String
  data : String
deriving Repr, DecidableEq

/-- Payload of pusher:connection_established (client.go lines 106-109). -/
structure connectionData where
  socketID : String
  activityTimeout : Int
deriving Repr, DecidableEq

/-- Decode a JSON value into a connectionData destination, following Go
semantics: missing fields keep their zero value, mistyped fields fail, a
top-level null leaves the destination at its zero value. -/
def decodeConnectionData (j : Json) : Option connectionData :=
  match j with
  | Json.obj fields =>
    match alistLookup fields "socket_id" with
    | some (Json.str s) =>
      match alistLookup fields "activity_timeout" with
      | some (Json.num n) => some ⟨s, n⟩
      | none => some ⟨s, 0⟩
      | some _ => none
    | none =>
      match alistLookup fields "activity_timeout" with
      | some (Json.num n) => some ⟨"", n⟩
      | none => some ⟨"", 0⟩
      | some _ => none
    | some _ => none
  | Json.null => some ⟨"", 0⟩
  | _ => none

/-- Errors produced by the modelled client operations, tagged by cause. -/
inductive GoError where
  | dialError (msg : String)
  | receiveError (msg : String)
  | eventError (code : Int) (message : String)
  | unmarshalError (msg : String)
  | unknownEventError (event : String)
  | closeError (msg : String)
  | marshalError (msg : String)
  | writeError (msg : String)
  | invalidChannelName (name : String)
  | subscriptionError (msg : String)
deriving Repr, DecidableEq

/-- Modelled from the spec: extractEventError is defined in a source file
outside the reviewed set; per the spec an EventError carrying a code and a
message is decoded from a pusher:error event's data. -/
def extractEventError (e : Event) : GoError :=
  match parseJson e.data with
  | some (Json.obj fields) =>
    GoError.eventError
      (match alistLookup fields "code" with
       | some (Json.num n) => n
       | _ => 0)
      (match alistLookup fields "message" with
       | some (Json.str s) => s
       | _ => "")
  | _ => GoError.eventError 0 ""

/-- A buffered Go channel used purely as a token buffer: its capacity and the
number of tokens currently pending. -/
structure BufChan where
  capacity : Nat
  pending : Nat
deriving Repr, DecidableEq

/-- State of the session cancellation channel (the done channel). -/
inductive DoneChan where
  | opened
  | closed
deriving Repr, DecidableEq

/-- A Go timer: its programmed duration and whether it is running. -/
structure GoTimer where
  duration : Int
  running : Bool
deriving Repr, DecidableEq

/-- The three channel variants, chosen by name prefix (client.go lines 442-449). -/
inductive ChannelVariant where
  | publicChan
  | privateChan
  | presenceChan
deriving Repr, DecidableEq

/-- A subscribed channel object as far as the registry logic observes it:
its name and its variant. The subscription protocol internals live in source
files outside the reviewed set and are abstracted away. -/
structure GoChannel where
  name : String
  variant : ChannelVariant
deriving Repr, DecidableEq

/-- Mutable state of a Client (client.go lines 61-104). Nilable Go fields
are wrapped in Option: none is Go nil. The websocket handle is a number
naming the dialed connection. -/
structure ClientState where
  errorsConfigured : Bool
  socketID : String
  activityTimeout : Int
  pongTimeout : Int
  ws : Option Nat
  connected : Bool
  activityTimer : Option GoTimer
  activityTimerReset : Option BufChan
  pongTimer : Option GoTimer
  pongReceived : Option BufChan
  pongFailures : Int
  ReconnectDelay : Int
  appKey : String
  boundEvents : Option (List (String × Nat))
  subscribedChannels : Option (List (String × GoChannel))
  done : Option DoneChan
deriving Repr, DecidableEq

/-- The zero value of a Client, as produced by Go struct literal defaults. -/
def ClientState.zero : ClientState :=
  { errorsConfigured := false
    socketID := ""
    activityTimeout := 0
    pongTimeout := 0
    ws := none
    connected := false
    activityTimer := none
    activityTimerReset := none
    pongTimer := none
    pongReceived := none
    pongFailures := 0
    ReconnectDelay := 0
    appKey := ""
    boundEvents := none
    subscribedChannels := none
    done := none }

/-- Observable side effects of the modelled operations. -/
inductive Effect where
  | resetSubscriptionState (channelName : String)
  | channelSubscribe (channelName : String)
  | startHeartbeat
  | startListen
  | timerReset
  | sendFrame (e : Event)
deriving Repr, DecidableEq

/-- Decidable equality for handshake results. -/
instance {e a : Type} [DecidableEq e] [DecidableEq a] : DecidableEq (Except e a) := fun x y =>
  match x, y with
  | Except.error u, Except.error v =>
    if h : u = v then Decidable.isTrue (by rw [h])
    else Decidable.isFalse (fun hc => h (by injection hc))
  | Except.ok u, Except.ok v =>
    if h : u = v then Decidable.isTrue (by rw [h])
    else Decidable.isFalse (fun hc => h (by injection hc))
  | Except.error _, Except.ok _ => Decidable.isFalse (fun hc => Except.noConfusion hc)
  | Except.ok _, Except.error _ => Decidable.isFalse (fun hc => Except.noConfusion hc)

/-- Environment of one handshake attempt: the outcome of the websocket dial
and the outcome of receiving the first frame. -/
structure HandshakeEnv where
  dial : Except String Nat
  firstFrame : Except String Event
deriving Repr, DecidableEq

/-- connectInternal (client.go lines 158-223): dial, receive the first
frame, and switch on its event name; on pusher:connection_established decode
the double-encoded connection data, initialize session state, start the
heartbeat and dispatcher tasks and re-issue the subscription of every
registered channel. -/
def connectInternal (c : ClientState) (env : HandshakeEnv) :
    ClientState × Option GoError × List Effect :=
  match env.dial with
  | Except.error msg => ({ c with ws := none }, some (GoError.dialError msg), [])
  | Except.ok handle =>
    let c := { c with ws := some handle }
    match env.firstFrame with
    | Except.error msg => (c, some (GoError.receiveError msg), [])
    | Except.ok event =>
      if event.event = pusherError then
        (c, some (extractEventError event), [])
      else if event.event = pusherConnEstablished then
        match UnmarshalDataString event.data with
        | Except.error msg => (c, some (GoError.unmarshalError msg), [])
        | Except.ok j =>
          match decodeConnectionData j with
          | none =>
            (c, some (GoError.unmarshalError "failed to unmarshal data string to destination"), [])
          | some connData =>
            let prev := match c.subscribedChannels with | none => [] | some m => m
            let c := { c with
              connected := true
              done := some DoneChan.opened
              socketID := connData.socketID
              activityTimeout := connData.activityTimeout * second
              activityTimer := some ⟨connData.activityTimeout * second, true⟩
              activityTimerReset := some ⟨1, 0⟩
              pongTimer := some ⟨c.pongTimeout, false⟩
              pongReceived := some ⟨1, 0⟩
              boundEvents := match c.boundEvents with | none => some [] | some m => some m
              subscribedChannels := match c.subscribedChannels with | none => some [] | some m => some m }
            (c, none,
              (prev.map fun p => Effect.resetSubscriptionState p.1)
                ++ [Effect.startHeartbeat, Effect.startListen]
                ++ prev.map fun p => Effect.channelSubscribe p.1)
      else
        (c, some (GoError.unknownEventError event.event), [])

/-- Connect (client.go lines 145-155): store the app key, initialize the
pong timeout, the reconnect delay and the pong failure counter, then run the
handshake. -/
def Connect (c : ClientState) (appKey : String) (env : HandshakeEnv) :
    ClientState × Option GoError × List Effect :=
  let c := { c with
    appKey := appKey
    pongTimeout := defaultPongTimeout
    ReconnectDelay := initialReconnectDelay
    pongFailures := 0 }
  connectInternal c env


/-- Non-blocking send on a buffered channel, as performed by a select with a
default case: the token is enqueued when the buffer has room, otherwise the
default case drops it; the caller never blocks either way. Returns the
channel and whether the token was enqueued. -/
def trySend (ch : BufChan) : BufChan × Bool :=
  if ch.pending < ch.capacity then ({ ch with pending := ch.pending + 1 }, true)
  else (ch, false)

/-- resetActivityTimer (client.go lines 232-239): non-blocking send of a
reset token into the activityTimerReset channel; if a reset is already
pending the request is dropped. A send on a nil channel is never ready, so
the default case also drops the request then. -/
def resetActivityTimer (c : ClientState) : ClientState × Bool :=
  match c.activityTimerReset with
  | none => (c, false)
  | some ch =>
    let r := trySend ch
    ({ c with activityTimerReset := some r.1 }, r.2)

/-- Iterated resetActivityTimer: a back-to-back sequence of n reset calls. -/
def resetIter : Nat → ClientState → ClientState
  | 0, c => c
  | Nat.succ n, c => resetIter n (resetActivityTimer c).1

/-- sendError (client.go lines 358-367): if no Errors channel is configured,
return; otherwise attempt a non-blocking send and drop the error when the
sink cannot accept it. The environment flag says whether the sink can accept
a value right now. Returns the client state and the delivered error, if any. -/
def sendError (c : ClientState) (sinkReady : Bool) (e : GoError) :
    ClientState × Option GoError :=
  if c.errorsConfigured = false then (c, none)
  else if sinkReady then (c, some e) else (c, none)

/-- Body of the backoff loop of attemptReconnect (client.go lines 328-347),
driven by one handshake environment per iteration: read the current delay,
advance the stored delay to goMin of its double and the cap, sleep the read
delay, then run the handshake; stop on the first success. Returns the final
state, the list of slept delays, and whether a handshake succeeded before
the supplied environments ran out. -/
def reconnectLoop : ClientState → List HandshakeEnv → ClientState × List Int × Bool
  | c, [] => (c, [], false)
  | c, env :: envs =>
    let delay := c.ReconnectDelay
    let c := { c with ReconnectDelay := goMin (c.ReconnectDelay * 2) maxReconnectDelay }
    let r := connectInternal c env
    match r.2.1 with
    | none => (r.1, [delay], true)
    | some _ =>
      let rest := reconnectLoop r.1 envs
      (rest.1, delay :: rest.2.1, rest.2.2)

/-- attemptReconnect (client.go lines 307-348): return if already
disconnected; otherwise close the done channel, mark disconnected, close the
old websocket and enter the exponential-backoff reconnection loop. -/
def attemptReconnect (c : ClientState) (envs : List HandshakeEnv) :
    ClientState × List Int × Bool :=
  if c.connected = false then (c, [], false)
  else
    let c := { c with
      done := match c.done with | some _ => some DoneChan.closed | none => none
      connected := false }
    reconnectLoop c envs

/-- Construct the channel object for a fresh subscription, choosing the
variant by name prefix (client.go lines 437-449). -/
def newChannel (channelName : String) : GoChannel :=
  if "private-".data.isPrefixOf channelName.data then
    ⟨channelName, ChannelVariant.privateChan⟩
  else if "presence-".data.isPrefixOf channelName.data then
    ⟨channelName, ChannelVariant.presenceChan⟩
  else
    ⟨channelName, ChannelVariant.publicChan⟩

/-- Subscribe (client.go lines 431-456): if the channel is already
registered return it, otherwise create the variant chosen by prefix and
register it; in both cases return the channel together with the result of
the channel-level subscription (whose internals live outside the reviewed
set and are supplied as the environment value subResult). A nil registry
makes the Go map insertion panic, modelled as none. -/
def Subscribe (c : ClientState) (channelName : String) (subResult : Option GoError) :
    Option (ClientState × GoChannel × Option GoError) :=
  match c.subscribedChannels with
  | none => none
  | some m =>
    match alistLookup m channelName with
    | some ch => some (c, ch, subResult)
    | none =>
      let ch := newChannel channelName
      some ({ c with subscribedChannels := some (m ++ [(channelName, ch)]) }, ch, subResult)

/-- SubscribePresence (client.go lines 468-475): reject names lacking the
presence- prefix with an invalid-channel-name error; otherwise delegate to
Subscribe and assert the presence variant (a failing type assertion panics,
modelled as none). -/
def SubscribePresence (c : ClientState) (channelName : String) (subResult : Option GoError) :
    Option (ClientState × Option GoChannel × Option GoError) :=
  if ("presence-".data.isPrefixOf channelName.data) = false then
    some (c, none, some (GoError.invalidChannelName channelName))
  else
    match Subscribe c channelName subResult with
    | none => none
    | some (c', ch, err) =>
      if ch.variant = ChannelVariant.presenceChan then some (c', some ch, err)
      else none

/-- Disconnect (client.go lines 546-560): if not connected return nil;
otherwise close the done channel, mark disconnected and close the websocket.
The environment supplies the result of the transport close; the returned
Bool says whether the transport close was performed. -/
def Disconnect (c : ClientState) (closeResult : Option GoError) :
    ClientState × Option GoError × Bool :=
  if c.connected = false then (c, none, false)
  else
    let c := { c with
      done := match c.done with | some _ => some DoneChan.closed | none => none
      connected := false }
    (c, closeResult, true)

/-- Escape one character for inclusion in a JSON string literal. -/
def escapeChar (ch : Char) : List Char :=
  if ch = '"' then ['\\', '"']
  else if ch = '\\' then ['\\', '\\']
  else [ch]

/-- Escape a string for inclusion in a JSON string literal. -/
def escapeString (s : String) : String :=
  String.mk (s.data.map escapeChar).flatten

mutual

/-- Serialize a JSON value, modelling the encoding half of the external JSON
codec. -/
def printJson : Json → String
  | Json.null => "null"
  | Json.bool true => "true"
  | Json.bool false => "false"
  | Json.num n => toString n
  | Json.str s => "\"" ++ escapeString s ++ "\""
  | Json.arr vs => "[" ++ printJsonList vs ++ "]"
  | Json.obj ms => String.mk [lbrace] ++ printJsonMembers ms ++ String.mk [rbrace]

/-- Serialize the comma-separated items of a JSON array. -/
def printJsonList : List Json → String
  | [] => ""
  | [v] => printJson v
  | v :: vs => printJson v ++ "," ++ printJsonList vs

/-- Serialize the comma-separated members of a JSON object. -/
def printJsonMembers : List (String × Json) → String
  | [] => ""
  | [(k, v)] => "\"" ++ escapeString k ++ "\":" ++ printJson v
  | (k, v) :: ms => "\"" ++ escapeString k ++ "\":" ++ printJson v ++ "," ++ printJsonMembers ms

end

/-- A Go value handed to the JSON marshaller: either a value that marshals
to the given JSON, or a value (such as a function or a channel) that the
marshaller rejects. -/
inductive GoValue where
  | jsonVal (j : Json)
  | unmarshalable (desc : String)
deriving Repr

/-- Marshalling a Go value to JSON text. -/
def jsonMarshal : GoValue → Except String String
  | GoValue.jsonVal j => Except.ok (printJson j)
  | GoValue.unmarshalable desc => Except.error desc

/-- SendEvent (client.go lines 527-542): marshal the payload, returning the
marshalling error on failure with nothing sent and no state change; on
success build the frame, request an activity-timer reset, then write the
frame, returning the transport write result supplied by the environment.
The effect trace records the reset request before the frame write. -/
def SendEvent (c : ClientState) (event : String) (data : GoValue)
    (channelName : String) (writeResult : Option GoError) :
    ClientState × Option GoError × List Effect :=
  match jsonMarshal data with
  | Except.error msg => (c, some (GoError.marshalError msg), [])
  | Except.ok dataJSON =>
    let e : Event := { event := event, channel := channelName, data := dataJSON }
    let c := (resetActivityTimer c).1
    (c, writeResult, [Effect.timerReset, Effect.sendFrame e])

/-- Sequence of delays slept by the backoff loop: the n-th delay given the
stored delay d at loop entry, following the update on client.go line 331. -/
def backoffDelays (d : Int) : Nat → Int
  | 0 => d
  | Nat.succ n => goMin (backoffDelays d n * 2) maxReconnectDelay

/-- Whether a handshake environment makes connectInternal succeed: the dial
and the first receive succeed, the first event is
pusher:connection_established and its double-encoded data decodes. -/
def handshakeOK (env : HandshakeEnv) : Bool :=
  match env.dial with
  | Except.error _ => false
  | Except.ok _ =>
    match env.firstFrame with
    | Except.error _ => false
    | Except.ok ev =>
      if ev.event = pusherError then false
      else if ev.event = pusherConnEstablished then
        match UnmarshalDataString ev.data with
        | Except.error _ => false
        | Except.ok j => (decodeConnectionData j).isSome
      else false

/-- Well-formedness of the channel registry: every registered object is the
one Subscribe builds for its name, so its variant matches the name prefix. -/
def registryWF (m : List (String × GoChannel)) : Prop :=
  ∀ p ∈ m, p.2 = newChannel p.1

/-- Double-encoded connection data of the S1/S2 scenarios. -/
def s1Input : String := "\"\x7b\\\"foo\\\":\\\"A\\\",\\\"bar\\\":1\x7d\""

/-- Inner document of the S1 scenario, after the first decoding stage. -/
def s1Inner : String := "\x7b\"foo\":\"A\",\"bar\":1\x7d"

/-- Double-encoded connection data announcing socket s2 and a 120 second
activity timeout. -/
def connEstData : String := "\"\x7b\\\"socket_id\\\":\\\"s2\\\",\\\"activity_timeout\\\":120\x7d\""

/-- A handshake environment in which the dial succeeds and the first frame
is a well-formed pusher:connection_established. -/
def goodEnv : HandshakeEnv :=
  { dial := Except.ok 2
    firstFrame := Except.ok ⟨pusherConnEstablished, "", connEstData⟩ }

/-- A handshake environment whose first frame claims connection established
but carries undecodable data. -/
def badDataEnv : HandshakeEnv :=
  { dial := Except.ok 1
    firstFrame := Except.ok ⟨pusherConnEstablished, "", "notjson"⟩ }

/-- A handshake environment whose first frame is a pusher:error with decoded
code 4001 and message "bad key". -/
def errorEnv : HandshakeEnv :=
  { dial := Except.ok 1
    firstFrame := Except.ok
      ⟨pusherError, "", "\x7b\"code\":4001,\"message\":\"bad key\"\x7d"⟩ }

/-- A connected client that is about to reconnect: it has missed two pongs
and its stored backoff delay still holds the initial value. -/
def reconnectingClient : ClientState :=
  { ClientState.zero with
    connected := true
    ws := some 1
    done := some DoneChan.opened
    ReconnectDelay := initialReconnectDelay
    pongFailures := 2 }

/-- A connected client used to exercise Disconnect. -/
def connectedClient : ClientState :=
  { ClientState.zero with
    connected := true
    ws := some 1
    done := some DoneChan.opened }

/-- A client whose activity-timer reset channel is allocated and empty. -/
def idleClient : ClientState :=
  { ClientState.zero with activityTimerReset := some ⟨1, 0⟩ }

/-- A client with an empty allocated channel registry and a configured error
sink. -/
def registryClient : ClientState :=
  { ClientState.zero with errorsConfigured := true, subscribedChannels := some [] }

theorem goMin_eq_min (a b : Int) : goMin a b = min a b := by
  unfold goMin; split <;> omega

theorem connEst_ne_error : pusherConnEstablished ≠ pusherError := by decide

theorem connectInternal_preserves_counters (c : ClientState) (env : HandshakeEnv) :
    (connectInternal c env).1.ReconnectDelay = c.ReconnectDelay ∧
    (connectInternal c env).1.pongFailures = c.pongFailures := by
  rcases env with ⟨d, f⟩
  cases d with
  | error m => exact ⟨rfl, rfl⟩
  | ok h =>
    cases f with
    | error m => exact ⟨rfl, rfl⟩
    | ok ev =>
      by_cases h1 : ev.event = pusherError
      · simp [connectInternal, h1]
      · by_cases h2 : ev.event = pusherConnEstablished
        · cases hu : UnmarshalDataString ev.data with
          | error m => simp [connectInternal, h1, h2, hu, connEst_ne_error]
          | ok j =>
            cases hd : decodeConnectionData j with
            | none => simp [connectInternal, h1, h2, hu, hd, connEst_ne_error]
            | some cd => simp [connectInternal, h1, h2, hu, hd, connEst_ne_error]
        · simp [connectInternal, h1, h2]

theorem connectInternal_none_iff (c : ClientState) (env : HandshakeEnv) :
    (connectInternal c env).2.1 = none ↔ handshakeOK env = true := by
  rcases env with ⟨d, f⟩
  cases d with
  | error m => simp [connectInternal, handshakeOK]
  | ok h =>
    cases f with
    | error m => simp [connectInternal, handshakeOK]
    | ok ev =>
      by_cases h1 : ev.event = pusherError
      · simp [connectInternal, handshakeOK, h1]
      · by_cases h2 : ev.event = pusherConnEstablished
        · cases hu : UnmarshalDataString ev.data with
          | error m => simp [connectInternal, handshakeOK, h1, h2, hu, connEst_ne_error]
          | ok j =>
            cases hd : decodeConnectionData j with
            | none => simp [connectInternal, handshakeOK, h1, h2, hu, hd, connEst_ne_error]
            | some cd => simp [connectInternal, handshakeOK, h1, h2, hu, hd, connEst_ne_error]
        · simp [connectInternal, handshakeOK, h1, h2]

theorem backoffDelays_shift (d : Int) (n : Nat) :
    backoffDelays (goMin (d * 2) maxReconnectDelay) n = backoffDelays d (n + 1) := by
  induction n with
  | zero => rfl
  | succ n ih => simp only [backoffDelays, ih]

theorem reconnectLoop_spec :
    ∀ (envs : List HandshakeEnv) (c : ClientState),
    (reconnectLoop c envs).1.pongFailures = c.pongFailures
    ∧ (reconnectLoop c envs).2.1.length ≤ envs.length
    ∧ (∀ i (h : i < (reconnectLoop c envs).2.1.length),
        (reconnectLoop c envs).2.1.get ⟨i, h⟩ = backoffDelays c.ReconnectDelay i)
    ∧ ((∀ env ∈ envs, handshakeOK env = false) →
        (reconnectLoop c envs).2.1.length = envs.length
        ∧ (reconnectLoop c envs).2.2 = false) := by
  intro envs
  induction envs with
  | nil =>
    intro c
    refine ⟨rfl, by simp [reconnectLoop], ?_, fun _ => ⟨rfl, rfl⟩⟩
    intro i h
    simp [reconnectLoop] at h
  | cons env envs ih =>
    intro c
    have hstep : reconnectLoop c (env :: envs) =
        match (connectInternal
            { c with ReconnectDelay := goMin (c.ReconnectDelay * 2) maxReconnectDelay } env).2.1 with
        | none =>
          ((connectInternal
              { c with ReconnectDelay := goMin (c.ReconnectDelay * 2) maxReconnectDelay } env).1,
            [c.ReconnectDelay], true)
        | some _ =>
          ((reconnectLoop (connectInternal
              { c with ReconnectDelay := goMin (c.ReconnectDelay * 2) maxReconnectDelay } env).1 envs).1,
            c.ReconnectDelay :: (reconnectLoop (connectInternal
              { c with ReconnectDelay := goMin (c.ReconnectDelay * 2) maxReconnectDelay } env).1 envs).2.1,
            (reconnectLoop (connectInternal
              { c with ReconnectDelay := goMin (c.ReconnectDelay * 2) maxReconnectDelay } env).1 envs).2.2) := rfl
    cases herr : (connectInternal
        { c with ReconnectDelay := goMin (c.ReconnectDelay * 2) maxReconnectDelay } env).2.1 with
    | none =>
      rw [hstep, herr]
      have hok : handshakeOK env = true := (connectInternal_none_iff _ _).1 herr
      have hpf := (connectInternal_preserves_counters
        { c with ReconnectDelay := goMin (c.ReconnectDelay * 2) maxReconnectDelay } env).2
      refine ⟨hpf, by simp, ?_, ?_⟩
      · intro i h
        have hi : i = 0 := by simpa using Nat.lt_one_iff.mp (by simpa using h)
        subst hi
        rfl
      · intro hall
        have := hall env (List.mem_cons_self _ _)
        rw [hok] at this
        cases this
    | some e =>
      rw [hstep, herr]
      have hpf := (connectInternal_preserves_counters
        { c with ReconnectDelay := goMin (c.ReconnectDelay * 2) maxReconnectDelay } env).1
      have hpf2 := (connectInternal_preserves_counters
        { c with ReconnectDelay := goMin (c.ReconnectDelay * 2) maxReconnectDelay } env).2
      obtain ⟨ih1, ih2, ih3, ih4⟩ := ih (connectInternal
        { c with ReconnectDelay := goMin (c.ReconnectDelay * 2) maxReconnectDelay } env).1
      refine ⟨by rw [ih1, hpf2], by simpa using Nat.succ_le_succ ih2, ?_, ?_⟩
      · intro i h
        cases i with
        | zero => rfl
        | succ i =>
          have h' : i < (reconnectLoop (connectInternal
              { c with ReconnectDelay := goMin (c.ReconnectDelay * 2) maxReconnectDelay } env).1 envs).2.1.length := by
            simpa using Nat.lt_of_succ_lt_succ (by simpa using h)
          have := ih3 i h'
          rw [hpf] at this
          calc (c.ReconnectDelay :: (reconnectLoop (connectInternal
                { c with ReconnectDelay := goMin (c.ReconnectDelay * 2) maxReconnectDelay } env).1 envs).2.1).get
                ⟨i + 1, by simpa using h⟩
              = (reconnectLoop (connectInternal
                { c with ReconnectDelay := goMin (c.ReconnectDelay * 2) maxReconnectDelay } env).1 envs).2.1.get
                ⟨i, h'⟩ := rfl
            _ = backoffDelays (goMin (c.ReconnectDelay * 2) maxReconnectDelay) i := this
            _ = backoffDelays c.ReconnectDelay (i + 1) := backoffDelays_shift _ _
      · intro hall
        obtain ⟨hl, hb⟩ := ih4 (fun e he => hall e (List.mem_cons_of_mem _ he))
        exact ⟨by simpa using hl, hb⟩

theorem second_pos : (0 : Int) < second := by norm_num [second]

theorem backoffDelays_initial (n : Nat) :
    backoffDelays initialReconnectDelay n = min (2 ^ n * second) maxReconnectDelay := by
  induction n with
  | zero =>
    show initialReconnectDelay = min (2 ^ 0 * second) maxReconnectDelay
    norm_num [initialReconnectDelay, second, maxReconnectDelay]
  | succ n ih =>
    show goMin (backoffDelays initialReconnectDelay n * 2) maxReconnectDelay =
      min (2 ^ (n + 1) * second) maxReconnectDelay
    rw [ih, goMin_eq_min]
    have ha : (0 : Int) < 2 ^ n * second :=
      mul_pos (pow_pos (by norm_num) n) second_pos
    have h2 : (2 : Int) ^ (n + 1) * second = 2 ^ n * second * 2 := by ring
    have hcap : (0 : Int) ≤ maxReconnectDelay := by norm_num [maxReconnectDelay, second]
    rw [h2]
    omega

theorem attemptReconnect_connected (c : ClientState) (envs : List HandshakeEnv)
    (hc : c.connected = true) :
    attemptReconnect c envs =
      reconnectLoop
        { c with
          done := match c.done with | some _ => some DoneChan.closed | none => none
          connected := false } envs := by
  simp [attemptReconnect, hc]

/-- C2: during reconnection under sustained failure, the sleep delays of
the backoff loop satisfy the recurrence with initial value 1 s and step
doubling capped at 60 s; every delay is at most 60 s, once the cap is
reached it is kept, and under sustained failure the loop keeps retrying
(one sleep per failed attempt). -/
theorem reconnect_backoff_delay_recurrence (c : ClientState) (envs : List HandshakeEnv)
    (hc : c.connected = true) (hd : c.ReconnectDelay = initialReconnectDelay) :
    (∀ i (h : i < (attemptReconnect c envs).2.1.length),
        (attemptReconnect c envs).2.1.get ⟨i, h⟩ = min (2 ^ i * second) maxReconnectDelay)
    ∧ (∀ h0 : 0 < (attemptReconnect c envs).2.1.length,
        (attemptReconnect c envs).2.1.get ⟨0, h0⟩ = initialReconnectDelay)
    ∧ (∀ i (h1 : i < (attemptReconnect c envs).2.1.length)
          (h2 : i + 1 < (attemptReconnect c envs).2.1.length),
        (attemptReconnect c envs).2.1.get ⟨i + 1, h2⟩
          = min (2 * (attemptReconnect c envs).2.1.get ⟨i, h1⟩) maxReconnectDelay)
    ∧ (∀ i (h : i < (attemptReconnect c envs).2.1.length),
        (attemptReconnect c envs).2.1.get ⟨i, h⟩ ≤ maxReconnectDelay)
    ∧ (∀ i j (hi : i < (attemptReconnect c envs).2.1.length)
          (hj : j < (attemptReconnect c envs).2.1.length),
        (attemptReconnect c envs).2.1.get ⟨i, hi⟩ = maxReconnectDelay → i ≤ j →
        (attemptReconnect c envs).2.1.get ⟨j, hj⟩ = maxReconnectDelay)
    ∧ ((∀ env ∈ envs, handshakeOK env = false) →
        (attemptReconnect c envs).2.1.length = envs.length
        ∧ (attemptReconnect c envs).2.2 = false) := by
  rw [attemptReconnect_connected c envs hc]
  obtain ⟨hpf, hlen, hget, hfail⟩ := reconnectLoop_spec envs
    { c with
      done := match c.done with | some _ => some DoneChan.closed | none => none
      connected := false }
  have hrd : ({ c with
      done := match c.done with | some _ => some DoneChan.closed | none => none
      connected := false } : ClientState).ReconnectDelay = initialReconnectDelay := hd
  refine ⟨?_, ?_, ?_, ?_, ?_, hfail⟩
  · intro i h
    rw [hget i h, hrd, backoffDelays_initial]
  · intro h0
    rw [hget 0 h0, hrd]
    rfl
  · intro i h1 h2
    rw [hget (i + 1) h2, hget i h1, hrd]
    show goMin (backoffDelays initialReconnectDelay i * 2) maxReconnectDelay = _
    rw [goMin_eq_min, mul_comm]
  · intro i h
    rw [hget i h, hrd, backoffDelays_initial]
    exact min_le_right _ _
  · intro i j hi hj hcap hij
    rw [hget i hi, hrd, backoffDelays_initial] at hcap
    rw [hget j hj, hrd, backoffDelays_initial]
    have hle : (2 : Int) ^ i * second ≤ 2 ^ j * second :=
      mul_le_mul_of_nonneg_right (pow_le_pow_right₀ (by norm_num) hij) (le_of_lt second_pos)
    have hmax : maxReconnectDelay ≤ 2 ^ i * second := by
      by_contra hlt
      push_neg at hlt
      rw [min_eq_left (le_of_lt hlt)] at hcap
      omega
    exact min_eq_right (le_trans hmax hle)

/-- Witness for C2: a connected client with the initial delay and two
failing handshakes sleeps exactly twice before continuing to retry. -/
theorem reconnect_backoff_delay_recurrence_witness :
    (attemptReconnect reconnectingClient [badDataEnv, badDataEnv]).2.1.length = 2
    ∧ (attemptReconnect reconnectingClient [badDataEnv, badDataEnv]).2.2 = false := by
  have h := reconnect_backoff_delay_recurrence reconnectingClient [badDataEnv, badDataEnv]
    rfl rfl
  exact h.2.2.2.2.2 (by decide)

/-- C1 (amended): only the top-level Connect resets reconnectDelay to the
initial value and pongFailureCount to 0, and it does so unconditionally
before the handshake; the handshake itself preserves both counters, so
handshakes performed by the reconnection loop return with pongFailureCount
unchanged and with reconnectDelay at the value already advanced by the
backoff loop. -/
theorem backoff_counters_reset_only_in_connect (c : ClientState) (env : HandshakeEnv)
    (appKey : String) (envs : List HandshakeEnv) :
    ((connectInternal c env).1.ReconnectDelay = c.ReconnectDelay
      ∧ (connectInternal c env).1.pongFailures = c.pongFailures)
    ∧ ((Connect c appKey env).1.ReconnectDelay = initialReconnectDelay
      ∧ (Connect c appKey env).1.pongFailures = 0)
    ∧ (attemptReconnect c envs).1.pongFailures = c.pongFailures := by
  have hcounters := connectInternal_preserves_counters
    { c with
      appKey := appKey
      pongTimeout := defaultPongTimeout
      ReconnectDelay := initialReconnectDelay
      pongFailures := 0 } env
  refine ⟨connectInternal_preserves_counters c env, ⟨hcounters.1, hcounters.2⟩, ?_⟩
  · by_cases hcon : c.connected = true
    · rw [attemptReconnect_connected c envs hcon]
      exact (reconnectLoop_spec envs _).1
    · have hfalse : c.connected = false := by
        revert hcon; cases c.connected <;> simp
      simp [attemptReconnect, hfalse]

/-- Counterexample to C1 as stated: a reconnection-loop handshake whose
first frame is pusher:connection_established succeeds, yet it returns with
reconnectDelay advanced to 2 s (not the initial 1 s) and with
pongFailureCount still 2 (not 0). -/
theorem reconnect_success_keeps_advanced_counters :
    (attemptReconnect reconnectingClient [goodEnv]).2.2 = true
    ∧ (attemptReconnect reconnectingClient [goodEnv]).1.connected = true
    ∧ (attemptReconnect reconnectingClient [goodEnv]).1.ReconnectDelay = 2 * second
    ∧ (attemptReconnect reconnectingClient [goodEnv]).1.ReconnectDelay ≠ initialReconnectDelay
    ∧ (attemptReconnect reconnectingClient [goodEnv]).1.pongFailures = 2
    ∧ (attemptReconnect reconnectingClient [goodEnv]).1.pongFailures ≠ 0 := by
  refine ⟨rfl, rfl, by decide, by decide, rfl, by decide⟩

theorem resetIter_inv : ∀ (n : Nat) (c : ClientState) (ch : BufChan),
    c.activityTimerReset = some ch → ch.capacity = 1 → ch.pending ≤ 1 →
    ∃ ch' : BufChan, (resetIter n c).activityTimerReset = some ch'
      ∧ ch'.capacity = 1 ∧ ch'.pending ≤ 1 := by
  intro n
  induction n with
  | zero => exact fun c ch h1 h2 h3 => ⟨ch, h1, h2, h3⟩
  | succ n ih =>
    intro c ch h1 h2 h3
    have hstep : resetIter (n + 1) c = resetIter n (resetActivityTimer c).1 := rfl
    rw [hstep]
    have hch : (resetActivityTimer c).1.activityTimerReset = some (trySend ch).1 := by
      simp [resetActivityTimer, h1]
    refine ih _ _ hch ?_ ?_
    · unfold trySend; split <;> simp [h2]
    · unfold trySend; split <;> simp <;> omega

/-- C3: the activity-timer reset request never blocks: when the one-slot
buffer is empty the request enqueues exactly one pending token, when a
reset is already pending the request is dropped and the state is unchanged,
and under any sequence of back-to-back reset calls at most one reset is
ever pending. -/
theorem reset_activity_timer_coalesces (c : ClientState) (ch : BufChan)
    (hch : c.activityTimerReset = some ch) (hcap : ch.capacity = 1)
    (hp : ch.pending ≤ 1) :
    (ch.pending = 0 →
      resetActivityTimer c = ({ c with activityTimerReset := some ⟨1, 1⟩ }, true))
    ∧ (ch.pending = 1 → resetActivityTimer c = (c, false))
    ∧ (∀ n, ∃ ch' : BufChan,
        (resetIter n c).activityTimerReset = some ch'
        ∧ ch'.capacity = 1 ∧ ch'.pending ≤ 1) := by
  obtain ⟨cap, p⟩ := ch
  simp only at hcap hp
  subst hcap
  refine ⟨?_, ?_, fun n => resetIter_inv n c ⟨1, p⟩ hch rfl hp⟩
  · intro h0
    simp only at h0
    subst h0
    simp [resetActivityTimer, hch, trySend]
  · intro h1
    simp only at h1
    subst h1
    have hc : ({ c with activityTimerReset := some ⟨1, 1⟩ } : ClientState) = c := by
      cases c
      simp_all
    simp [resetActivityTimer, hch, trySend, hc]

/-- Witness for C3: a first reset on an empty one-slot buffer enqueues one
token; a second back-to-back reset is dropped. -/
theorem reset_activity_timer_coalesces_witness :
    resetActivityTimer idleClient
      = ({ idleClient with activityTimerReset := some ⟨1, 1⟩ }, true)
    ∧ resetActivityTimer (resetActivityTimer idleClient).1
      = ((resetActivityTimer idleClient).1, false) := by
  refine ⟨(reset_activity_timer_coalesces idleClient ⟨1, 0⟩ rfl rfl (by decide)).1 rfl, ?_⟩
  exact (reset_activity_timer_coalesces (resetActivityTimer idleClient).1 ⟨1, 1⟩ rfl rfl
    (by decide)).2.1 rfl

/-- C7: Disconnect on a connected client closes the cancellation signal,
marks the client disconnected, performs the transport close and returns its
result; Disconnect on a disconnected client (including one that was never
connected, and every call after the first) returns nil without touching the
transport or the state. -/
theorem disconnect_idempotent (c : ClientState) (res res2 : Option GoError) :
    (c.connected = true →
      (Disconnect c res).1.connected = false
      ∧ ((Disconnect c res).1.done
          = match c.done with | some _ => some DoneChan.closed | none => none)
      ∧ (Disconnect c res).2.1 = res
      ∧ (Disconnect c res).2.2 = true
      ∧ Disconnect (Disconnect c res).1 res2 = ((Disconnect c res).1, none, false))
    ∧ (c.connected = false → Disconnect c res = (c, none, false)) := by
  constructor
  · intro hc
    have h1 : Disconnect c res
        = ({ c with
            done := match c.done with | some _ => some DoneChan.closed | none => none
            connected := false }, res, true) := by
      simp [Disconnect, hc]
    rw [h1]
    exact ⟨rfl, rfl, rfl, rfl, by simp [Disconnect]⟩
  · intro hc
    simp [Disconnect, hc]

/-- Witness for C7: a connected client is disconnected and closed once; the
second call and a call on a fresh client return nil without closing. -/
theorem disconnect_idempotent_witness :
    (Disconnect connectedClient none).2.2 = true
    ∧ (Disconnect connectedClient none).1.connected = false
    ∧ Disconnect (Disconnect connectedClient none).1 none
        = ((Disconnect connectedClient none).1, none, false)
    ∧ Disconnect ClientState.zero none = (ClientState.zero, none, false) := by
  have h := (disconnect_idempotent connectedClient none none).1 rfl
  exact ⟨h.2.2.2.1, h.1, h.2.2.2.2, (disconnect_idempotent ClientState.zero none none).2 rfl⟩

/-- C8: delivering an asynchronous error never blocks and never changes the
client state: with no error sink configured, or with the sink unable to
accept, the error is dropped; otherwise it is delivered. -/
theorem send_error_nonblocking (c : ClientState) (ready : Bool) (e : GoError) :
    (sendError c ready e).1 = c
    ∧ (c.errorsConfigured = false → (sendError c ready e).2 = none)
    ∧ (c.errorsConfigured = true → ready = false → (sendError c ready e).2 = none)
    ∧ (c.errorsConfigured = true → ready = true → (sendError c ready e).2 = some e) := by
  cases hc : c.errorsConfigured <;> cases hr : ready <;> simp [sendError, hc, hr]

/-- Witness for C8: with a configured sink the error is delivered exactly
when the sink is ready; with no sink it is dropped. -/
theorem send_error_nonblocking_witness :
    (sendError registryClient false (GoError.eventError 1 "x")).2 = none
    ∧ (sendError registryClient true (GoError.eventError 1 "x")).2
        = some (GoError.eventError 1 "x")
    ∧ (sendError ClientState.zero true (GoError.eventError 1 "x")).2 = none := by
  refine ⟨(send_error_nonblocking registryClient false _).2.2.1 rfl rfl,
    (send_error_nonblocking registryClient true _).2.2.2 rfl rfl,
    (send_error_nonblocking ClientState.zero true _).2.1 rfl⟩

/-- C10: SendEvent returns the marshalling error with no frame written, no
reset requested and the state unchanged when the payload cannot be
marshalled; on success the activity-timer reset is requested before the
frame write is attempted, independently of the write result. -/
theorem send_event_marshal_gating (c : ClientState) (event : String) (data : GoValue)
    (channelName : String) (w : Option GoError) :
    (∀ msg, jsonMarshal data = Except.error msg →
      SendEvent c event data channelName w = (c, some (GoError.marshalError msg), []))
    ∧ (∀ dj, jsonMarshal data = Except.ok dj →
      SendEvent c event data channelName w =
        ((resetActivityTimer c).1, w,
          [Effect.timerReset, Effect.sendFrame ⟨event, channelName, dj⟩])) := by
  constructor
  · intro msg hm
    simp [SendEvent, hm]
  · intro dj hm
    simp [SendEvent, hm]

/-- Witness for C10: an unmarshalable payload yields only the marshalling
error; a marshalable payload requests the reset before the write even when
the write fails. -/
theorem send_event_marshal_gating_witness :
    SendEvent ClientState.zero "client-x" (GoValue.unmarshalable "unsupported type") "ch" none
      = (ClientState.zero, some (GoError.marshalError "unsupported type"), [])
    ∧ SendEvent ClientState.zero "client-x" (GoValue.jsonVal (Json.num 1)) "ch"
        (some (GoError.writeError "broken pipe"))
      = ((resetActivityTimer ClientState.zero).1, some (GoError.writeError "broken pipe"),
          [Effect.timerReset, Effect.sendFrame ⟨"client-x", "ch", "1"⟩]) := by
  refine ⟨(send_event_marshal_gating ClientState.zero "client-x"
      (GoValue.unmarshalable "unsupported type") "ch" none).1 _ rfl,
    (send_event_marshal_gating ClientState.zero "client-x"
      (GoValue.jsonVal (Json.num 1)) "ch"
      (some (GoError.writeError "broken pipe"))).2 "1" rfl⟩

/-- C9: UnmarshalDataString decodes its input first as a JSON string and
then decodes that string as JSON into the destination, succeeding exactly
when both stages succeed (the S1 scenario input yields the expected
mapping), and returning an error when either stage fails. -/
theorem unmarshal_double_decode :
    (∀ raw s v, parseJson raw = some (Json.str s) → parseJson s = some v →
      UnmarshalDataString raw = Except.ok v)
    ∧ UnmarshalDataString s1Input
        = Except.ok (Json.obj [("foo", Json.str "A"), ("bar", Json.num 1)])
    ∧ (∀ raw, jsonUnmarshalString raw = none →
        UnmarshalDataString raw = Except.error "failed to unmarshal data to string")
    ∧ (∀ raw s, jsonUnmarshalString raw = some s → parseJson s = none →
        UnmarshalDataString raw
          = Except.error "failed to unmarshal data string to destination") := by
  refine ⟨?_, rfl, ?_, ?_⟩
  · intro raw s v h1 h2
    simp [UnmarshalDataString, jsonUnmarshalString, h1, h2]
  · intro raw h
    simp [UnmarshalDataString, h]
  · intro raw s h1 h2
    simp [UnmarshalDataString, h1, h2]

/-- Witness for C9: the S1 input decodes through both stages to the mapping
with foo bound to "A" and bar bound to 1. -/
theorem unmarshal_double_decode_witness :
    UnmarshalDataString s1Input
      = Except.ok (Json.obj [("foo", Json.str "A"), ("bar", Json.num 1)]) :=
  unmarshal_double_decode.1 s1Input s1Inner
    (Json.obj [("foo", Json.str "A"), ("bar", Json.num 1)]) rfl rfl

/-- C4: a successful handshake whose first frame is
pusher:connection_established with decodable double-encoded data installs
the decoded socket id and activity timeout (in seconds), allocates both
timers and the one-slot reset channel, and leaves the bindings map and the
channel registry non-nil. -/
theorem connect_established_sets_state (c : ClientState) (appKey : String)
    (env : HandshakeEnv) (handle : Nat) (ev : Event) (j : Json) (cd : connectionData)
    (h1 : env.dial = Except.ok handle) (h2 : env.firstFrame = Except.ok ev)
    (h3 : ev.event = pusherConnEstablished)
    (h4 : UnmarshalDataString ev.data = Except.ok j)
    (h5 : decodeConnectionData j = some cd) :
    (Connect c appKey env).2.1 = none
    ∧ (Connect c appKey env).1.connected = true
    ∧ (Connect c appKey env).1.socketID = cd.socketID
    ∧ (Connect c appKey env).1.activityTimeout = cd.activityTimeout * second
    ∧ (Connect c appKey env).1.activityTimer = some ⟨cd.activityTimeout * second, true⟩
    ∧ (Connect c appKey env).1.pongTimer = some ⟨defaultPongTimeout, false⟩
    ∧ (Connect c appKey env).1.activityTimerReset = some ⟨1, 0⟩
    ∧ (Connect c appKey env).1.pongReceived = some ⟨1, 0⟩
    ∧ (Connect c appKey env).1.boundEvents.isSome = true
    ∧ (Connect c appKey env).1.subscribedChannels.isSome = true := by
  rcases env with ⟨d, f⟩
  simp only at h1 h2
  subst h1
  subst h2
  simp [Connect, connectInternal, h3, connEst_ne_error, h4, h5]
  constructor
  · cases c.boundEvents <;> simp
  · cases c.subscribedChannels <;> simp

/-- Witness for C4: connecting against a frame announcing socket s2 and a
120 second activity timeout succeeds and installs that state. -/
theorem connect_established_sets_state_witness :
    (Connect ClientState.zero "key" goodEnv).2.1 = none
    ∧ (Connect ClientState.zero "key" goodEnv).1.socketID = "s2"
    ∧ (Connect ClientState.zero "key" goodEnv).1.activityTimeout = 120 * second
    ∧ (Connect ClientState.zero "key" goodEnv).1.activityTimerReset = some ⟨1, 0⟩ := by
  have h := connect_established_sets_state ClientState.zero "key" goodEnv 2
    ⟨pusherConnEstablished, "", connEstData⟩
    (Json.obj [("socket_id", Json.str "s2"), ("activity_timeout", Json.num 120)])
    ⟨"s2", 120⟩ rfl rfl rfl rfl rfl
  exact ⟨h.1, h.2.2.1, h.2.2.2.1, h.2.2.2.2.2.2.1⟩

/-- Counterexample to C5 as stated: the first frame is
pusher:connection_established, yet Connect returns an error because the
frame's data is not decodable, so connection established alone does not
imply a nil result. -/
theorem connect_established_bad_data_cex :
    (Connect ClientState.zero "key" badDataEnv).2.1
      = some (GoError.unmarshalError "failed to unmarshal data to string")
    ∧ (Connect ClientState.zero "key" badDataEnv).2.1 ≠ none := ⟨rfl, by decide⟩

/-- C5 (amended): after a successful dial and receive, the first frame
determines the result of Connect: pusher:error yields the decoded
EventError; pusher:connection_established yields nil exactly when its
double-encoded data decodes and otherwise yields the decode error; any
other event yields the unknown-event protocol error and leaves the
connected flag unchanged. -/
theorem connect_first_frame_determines_result (c : ClientState) (appKey : String)
    (env : HandshakeEnv) (handle : Nat) (ev : Event)
    (h1 : env.dial = Except.ok handle) (h2 : env.firstFrame = Except.ok ev) :
    (ev.event = pusherError →
      (Connect c appKey env).2.1 = some (extractEventError ev))
    ∧ (ev.event = pusherConnEstablished →
        (match UnmarshalDataString ev.data with
         | Except.ok j =>
           match decodeConnectionData j with
           | some _ => (Connect c appKey env).2.1 = none
           | none => (Connect c appKey env).2.1
               = some (GoError.unmarshalError "failed to unmarshal data string to destination")
         | Except.error msg => (Connect c appKey env).2.1
               = some (GoError.unmarshalError msg)))
    ∧ (ev.event ≠ pusherError → ev.event ≠ pusherConnEstablished →
        (Connect c appKey env).2.1 = some (GoError.unknownEventError ev.event)
        ∧ (Connect c appKey env).1.connected = c.connected) := by
  rcases env with ⟨d, f⟩
  simp only at h1 h2
  subst h1
  subst h2
  refine ⟨?_, ?_, ?_⟩
  · intro he
    simp [Connect, connectInternal, he]
  · intro he
    cases hu : UnmarshalDataString ev.data with
    | ok j =>
      cases hd : decodeConnectionData j with
      | some cd => simp [Connect, connectInternal, he, connEst_ne_error, hu, hd]
      | none => simp [Connect, connectInternal, he, connEst_ne_error, hu, hd]
    | error m => simp [Connect, connectInternal, he, connEst_ne_error, hu]
  · intro hne1 hne2
    simp [Connect, connectInternal, hne1, hne2]

/-- Witness for C5: a first frame of pusher:error with code 4001 and
message "bad key" makes Connect return exactly that EventError. -/
theorem connect_first_frame_determines_result_witness :
    (Connect ClientState.zero "key" errorEnv).2.1
      = some (GoError.eventError 4001 "bad key") := by
  have h := (connect_first_frame_determines_result ClientState.zero "key" errorEnv 1
    ⟨pusherError, "", "\x7b\"code\":4001,\"message\":\"bad key\"\x7d"⟩ rfl rfl).1 rfl
  exact h.trans (by rfl)

theorem not_private_and_presence (l : List Char) :
    ¬("private-".data.isPrefixOf l = true ∧ "presence-".data.isPrefixOf l = true) := by
  rintro ⟨hp1, hp2⟩
  rw [ List.isPrefixOf_iff_prefix] at hp1 hp2
  rcases List.prefix_or_prefix_of_prefix hp1 hp2 with h | h
  · exact (by decide : ¬("private-".data <+: "presence-".data)) h
  · exact (by decide : ¬("presence-".data <+: "private-".data)) h

theorem alistLookup_mem {α : Type} : ∀ (m : List (String × α)) (key : String) (v : α),
    alistLookup m key = some v → (key, v) ∈ m := by
  intro m
  induction m with
  | nil =>
    intro key v h
    simp [alistLookup] at h
  | cons p rest ih =>
    intro key v h
    rcases p with ⟨k, w⟩
    by_cases hk : k = key
    · subst hk
      simp [alistLookup] at h
      subst h
      exact List.mem_cons_self _ _
    · simp [alistLookup, hk] at h
      exact List.mem_cons_of_mem _ (ih key v h)

/-- C6: Subscribe is idempotent per name (a registered name returns the
existing object unchanged, an absent name registers exactly one new channel
whose variant is chosen by prefix), Subscribe always returns a channel
object for any subscription outcome, and SubscribePresence rejects
non-presence names with an invalid-channel-name error while delegating
presence names to Subscribe. -/
theorem subscribe_idempotent_prefix_dispatch (c : ClientState)
    (m : List (String × GoChannel)) (name : String) (e : Option GoError)
    (hreg : c.subscribedChannels = some m) :
    (∀ ch0, alistLookup m name = some ch0 → Subscribe c name e = some (c, ch0, e))
    ∧ (alistLookup m name = none →
        Subscribe c name e
          = some ({ c with subscribedChannels := some (m ++ [(name, newChannel name)]) },
              newChannel name, e))
    ∧ ((newChannel name).variant
        = if "private-".data.isPrefixOf name.data then ChannelVariant.privateChan
          else if "presence-".data.isPrefixOf name.data then ChannelVariant.presenceChan
          else ChannelVariant.publicChan)
    ∧ (∃ r, Subscribe c name e = some r)
    ∧ ("presence-".data.isPrefixOf name.data = false →
        SubscribePresence c name e = some (c, none, some (GoError.invalidChannelName name)))
    ∧ (registryWF m → "presence-".data.isPrefixOf name.data = true →
        ∃ c' ch, Subscribe c name e = some (c', ch, e)
          ∧ SubscribePresence c name e = some (c', some ch, e)) := by
  refine ⟨?_, ?_, ?_, ?_, ?_, ?_⟩
  · intro ch0 h
    simp [Subscribe, hreg, h]
  · intro h
    simp [Subscribe, hreg, h]
  · unfold newChannel
    by_cases hpriv : "private-".data.isPrefixOf name.data
    · simp [hpriv]
    · by_cases hpres : "presence-".data.isPrefixOf name.data
      · simp [hpriv, hpres]
      · simp [hpriv, hpres]
  · cases hl : alistLookup m name with
    | some ch0 => exact ⟨(c, ch0, e), by simp [Subscribe, hreg, hl]⟩
    | none =>
      exact ⟨({ c with subscribedChannels := some (m ++ [(name, newChannel name)]) },
        newChannel name, e), by simp [Subscribe, hreg, hl]⟩
  · intro h
    simp [SubscribePresence, h]
  · intro hwf hpres
    have hnotpriv : "private-".data.isPrefixOf name.data = false := by
      by_contra hcon
      have hpriv : "private-".data.isPrefixOf name.data = true := by
        revert hcon
        cases "private-".data.isPrefixOf name.data <;> simp
      exact not_private_and_presence name.data ⟨hpriv, hpres⟩
    have hvar : (newChannel name).variant = ChannelVariant.presenceChan := by
      unfold newChannel
      simp [hnotpriv, hpres]
    cases hl : alistLookup m name with
    | some ch0 =>
      have hch : ch0 = newChannel name := by
        have hmem := alistLookup_mem m name ch0 hl
        exact hwf (name, ch0) hmem
      refine ⟨c, ch0, by simp [Subscribe, hreg, hl], ?_⟩
      simp [SubscribePresence, hpres, Subscribe, hreg, hl, hch, hvar]
    | none =>
      refine ⟨{ c with subscribedChannels := some (m ++ [(name, newChannel name)]) },
        newChannel name, by simp [Subscribe, hreg, hl], ?_⟩
      simp [SubscribePresence, hpres, Subscribe, hreg, hl, hvar]

/-- Witness for C6: subscribing presence-foo on an empty registry registers
one presence channel, and SubscribePresence on a non-presence name returns
the invalid-channel-name error. -/
theorem subscribe_idempotent_prefix_dispatch_witness :
    Subscribe registryClient "presence-foo" none
      = some ({ registryClient with
          subscribedChannels :=
            some [("presence-foo", ⟨"presence-foo", ChannelVariant.presenceChan⟩)] },
          ⟨"presence-foo", ChannelVariant.presenceChan⟩, none)
    ∧ SubscribePresence registryClient "foo" none
        = some (registryClient, none, some (GoError.invalidChannelName "foo")) := by
  have h := subscribe_idempotent_prefix_dispatch registryClient [] "presence-foo" none rfl
  have h2 := subscribe_idempotent_prefix_dispatch registryClient [] "foo" none rfl
  exact ⟨(h.2.1 rfl).trans (by decide), h2.2.2.2.2.1 rfl⟩
